import Mathlib

/-!
Verification of the Docker Hub personal-access-token client
(`internal/hub/tokens.go`) against its specification.

The Go file is embedded shallowly:

* Wire structs (`hubTokenRequest`, `hubTokenResponse`, `hubTokenResult`)
  and the domain struct `Token` become Lean structures.
* `uuid.Parse` (third-party `github.com/google/uuid`) is abstracted as a
  parameter `parse : String → Option UUID`; `convertToken` fails exactly
  when `parse` fails, mirroring the Go code.
* The authenticated request executor `c.doRequest` lives in a source file
  outside the provided sources, so it is modelled from the spec as an
  abstract function from a `Request` to a decoded response or an error
  (it owns transport failures and non-success HTTP statuses, and we fuse
  the subsequent `json.Unmarshal` of the success body into it, so a
  decode failure is also one of its error outcomes).
* Every operation additionally returns the list of requests handed to
  the executor, in order, so that claims about no network call being
  made, or no further request being issued, are statements about that
  trace.
* The `for next != ""` pagination loop of `GetTokens` is given explicit
  fuel; running out of fuel is `Option.none`, i.e. the loop did not
  finish within that many iterations.
* `json.Marshal` of `hubTokenRequest` is modelled by
  `encodeHubTokenRequest`, which reproduces the `omitempty` behaviour of
  Go `encoding/json` for the three tagged fields (an empty string, the
  boolean `false` and an empty slice are omitted).
* `json.Marshal`, `url.Parse` and `http.NewRequest` cannot fail on the
  values this file builds (plain structs, caller-supplied strings), so
  their error branches are not modelled.
-/

namespace HubTool

/-- A parsed UUID value, standing in for `uuid.UUID` of
`github.com/google/uuid`; its internal representation is irrelevant here. -/
structure UUID where
  val : Nat
  deriving DecidableEq, Repr

/-- Stand-in for Go `time.Time`; the client never inspects timestamps. -/
abbrev Time := Nat

/-- The error outcomes of the client, as classified by the spec:
pre-flight scope rejection, a malformed UUID in a response, a transport
failure or non-success status raised by the executor, and a body-decode
failure. -/
inductive HubError where
  | invalidScope (scope : String)
  | invalidUUID (uuid : String)
  | transport (msg : String)
  | decode (msg : String)
  deriving DecidableEq, Repr

/-- A JSON value as it appears in a serialized `hubTokenRequest` body:
a string, a boolean, or an array of strings. -/
inductive JsonValue where
  | str (s : String)
  | bool (b : Bool)
  | arr (elems : List String)
  deriving DecidableEq, Repr

/-- An HTTP request as handed to the executor: method, absolute URL, and
the serialized JSON body (an ordered field list), when there is one. -/
structure Request where
  method : String
  url : String
  body : Option (List (String × JsonValue))
  deriving DecidableEq, Repr

/-- `TokensURL` path to the Hub API listing the Personal Access Tokens. -/
def TokensURL : String := "/v2/api_tokens"

/-- `TokenURL` path pattern to the Hub API Personal Access Token. -/
def TokenURL : String := "/v2/api_tokens/%s"

/-- `fmt.Sprintf(TokenURL, tokenUUID)`: the single `%s` verb of
`TokenURL` replaced verbatim by the argument. -/
def TokenURLFor (tokenUUID : String) : String := "/v2/api_tokens/" ++ tokenUUID

/-- Modelled from the spec: the page-size constant `itemsPerPage` is
declared in a client source file outside the provided sources; the spec
calls it an implementation-defined constant, e.g. 100. No claim depends
on its value. -/
def itemsPerPage : Nat := 100

/-- The allow-list `validScopes`: only public pulls. -/
def validScopes : List String := ["repo:public_read"]

/-- Domain `Token` struct. The `Token` field is only filled at creation. -/
structure Token where
  UUID : HubTool.UUID
  ClientID : String
  CreatorIP : String
  CreatorUA : String
  CreatedAt : Time
  LastUsed : Time
  GeneratedBy : String
  IsActive : Bool
  Token : String
  Description : String
  Scopes : List String
  deriving DecidableEq, Repr

/-- Wire struct `hubTokenRequest` (request DTO): fields tagged
`token_label,omitempty`, `is_active,omitempty`, `scopes,omitempty`. -/
structure HubTokenRequest where
  Description : String
  IsActive : Bool
  Scopes : List String
  deriving DecidableEq, Repr

/-- Wire struct `hubTokenResult`: one token object of a response. -/
structure HubTokenResult where
  UUID : String
  ClientID : String
  CreatorIP : String
  CreatorUA : String
  CreatedAt : Time
  LastUsed : Time
  GeneratedBy : String
  IsActive : Bool
  Token : String
  TokenLabel : String
  Scopes : List String
  deriving DecidableEq, Repr

/-- Wire struct `hubTokenResponse`: the paged envelope. -/
structure HubTokenResponse where
  Count : Int
  Next : String
  Previous : String
  Results : List HubTokenResult
  deriving DecidableEq, Repr

/-- `json.Marshal` of a `hubTokenRequest`, as the ordered list of emitted
JSON fields. Go `encoding/json` emits struct fields in declaration order
and `omitempty` drops a field whose value is the zero value of its kind:
the empty string, `false`, a nil or empty slice. -/
def encodeHubTokenRequest (r : HubTokenRequest) : List (String × JsonValue) :=
  (if r.Description = "" then [] else [("token_label", JsonValue.str r.Description)]) ++
  (if r.IsActive then [("is_active", JsonValue.bool true)] else []) ++
  (if r.Scopes.isEmpty then [] else [("scopes", JsonValue.arr r.Scopes)])

/-- `validateScopes`: walk the supplied scopes in order and fail with
`invalid scope %q` at the first one that is not in `validScopes`. -/
def validateScopes (scopes : List String) : Option HubError :=
  (scopes.find? fun s => !(validScopes.contains s)).map HubError.invalidScope

/-- `convertToken`: parse the wire `uuid` string (failing the whole
conversion if it is malformed) and copy the remaining fields, with the
wire `token_label` landing in the domain `Description`. -/
def convertToken (parse : String → Option HubTool.UUID) (response : HubTokenResult) :
    Except HubError Token :=
  match parse response.UUID with
  | none => Except.error (HubError.invalidUUID response.UUID)
  | some u =>
    Except.ok
      { UUID := u
        ClientID := response.ClientID
        CreatorIP := response.CreatorIP
        CreatorUA := response.CreatorUA
        CreatedAt := response.CreatedAt
        LastUsed := response.LastUsed
        GeneratedBy := response.GeneratedBy
        IsActive := response.IsActive
        Token := response.Token
        Description := response.TokenLabel
        Scopes := response.Scopes }

/-- The conversion loop of `getTokensPage`: convert each result in order,
returning the first conversion error. -/
def convertTokens (parse : String → Option HubTool.UUID) :
    List HubTokenResult → Except HubError (List Token)
  | [] => Except.ok []
  | r :: rs =>
    match convertToken parse r with
    | Except.error e => Except.error e
    | Except.ok t =>
      match convertTokens parse rs with
      | Except.error e => Except.error e
      | Except.ok ts => Except.ok (t :: ts)

/-- Modelled from the spec: the authenticated request executor
(`c.doRequest` with `WithHubToken`, declared outside the provided
sources) performs the HTTP call and translates non-success statuses into
errors; here it is fused with the `json.Unmarshal` of the success body
into a `hubTokenResult`, so its outcome is the decoded single-token
object or an error. -/
abbrev ResultExec := Request → Except HubError HubTokenResult

/-- Modelled from the spec: the same executor fused with decoding the
paged envelope `hubTokenResponse`. -/
abbrev PageExec := Request → Except HubError HubTokenResponse

/-- Modelled from the spec: the same executor with its raw response body,
for `RevokeToken`, which never decodes it. -/
abbrev RawExec := Request → Except HubError String

/-- The POST request built by `CreateToken`: `json.Marshal` of
`hubTokenRequest{Description: description, Scopes: scopes}` (its
`IsActive` is the zero value `false`) sent to `c.domain + TokensURL`. -/
def mkCreateRequest (domain description : String) (scopes : List String) : Request :=
  { method := "POST"
    url := domain ++ TokensURL
    body := some (encodeHubTokenRequest
      { Description := description, IsActive := false, Scopes := scopes }) }

/-- `CreateToken`: validate the scopes (returning before any request on
failure), then POST and convert the response. The second component is
the trace of requests handed to the executor. -/
def CreateToken (exec : ResultExec) (parse : String → Option HubTool.UUID)
    (domain description : String) (scopes : List String) :
    Except HubError Token × List Request :=
  match validateScopes scopes with
  | some e => (Except.error e, [])
  | none =>
    let req := mkCreateRequest domain description scopes
    match exec req with
    | Except.error e => (Except.error e, [req])
    | Except.ok tokenResponse =>
      match convertToken parse tokenResponse with
      | Except.error e => (Except.error e, [req])
      | Except.ok token => (Except.ok token, [req])

/-- The GET request built by `GetToken`. -/
def mkGetTokenRequest (domain tokenUUID : String) : Request :=
  { method := "GET", url := domain ++ TokenURLFor tokenUUID, body := none }

/-- `GetToken`: GET the single-resource endpoint (the `tokenUUID` string
interpolated verbatim into the path, unvalidated) and convert the
response. -/
def GetToken (exec : ResultExec) (parse : String → Option HubTool.UUID)
    (domain tokenUUID : String) :
    Except HubError Token × List Request :=
  let req := mkGetTokenRequest domain tokenUUID
  match exec req with
  | Except.error e => (Except.error e, [req])
  | Except.ok tokenResponse =>
    match convertToken parse tokenResponse with
    | Except.error e => (Except.error e, [req])
    | Except.ok token => (Except.ok token, [req])

/-- The PATCH request built by `UpdateToken`: `json.Marshal` of
`hubTokenRequest{Description: description, IsActive: isActive}` (its
`Scopes` is the zero value nil). -/
def mkUpdateRequest (domain tokenUUID description : String) (isActive : Bool) : Request :=
  { method := "PATCH"
    url := domain ++ TokenURLFor tokenUUID
    body := some (encodeHubTokenRequest
      { Description := description, IsActive := isActive, Scopes := [] }) }

/-- `UpdateToken`: PATCH the single-resource endpoint with the
description/activeness body and convert the response. -/
def UpdateToken (exec : ResultExec) (parse : String → Option HubTool.UUID)
    (domain tokenUUID description : String) (isActive : Bool) :
    Except HubError Token × List Request :=
  let req := mkUpdateRequest domain tokenUUID description isActive
  match exec req with
  | Except.error e => (Except.error e, [req])
  | Except.ok tokenResponse =>
    match convertToken parse tokenResponse with
    | Except.error e => (Except.error e, [req])
    | Except.ok token => (Except.ok token, [req])

/-- The DELETE request built by `RevokeToken`. -/
def mkRevokeRequest (domain tokenUUID : String) : Request :=
  { method := "DELETE", url := domain ++ TokenURLFor tokenUUID, body := none }

/-- `RevokeToken`: DELETE the single-resource endpoint, discard the
response body, and return exactly the error of the executor (`none` = no
error). -/
def RevokeToken (exec : RawExec) (domain tokenUUID : String) :
    Option HubError × List Request :=
  let req := mkRevokeRequest domain tokenUUID
  match exec req with
  | Except.error e => (some e, [req])
  | Except.ok _ => (none, [req])

/-- `getTokensPage`: GET the given page URL, decode the paged envelope,
convert every result in order, and return the tokens together with the
`next` continuation link. -/
def getTokensPage (exec : PageExec) (parse : String → Option HubTool.UUID)
    (url : String) :
    Except HubError (List Token × String) × List Request :=
  let req : Request := { method := "GET", url := url, body := none }
  match exec req with
  | Except.error e => (Except.error e, [req])
  | Except.ok hubResponse =>
    match convertTokens parse hubResponse.Results with
    | Except.error e => (Except.error e, [req])
    | Except.ok tokens => (Except.ok (tokens, hubResponse.Next), [req])

/-- The `for next != ""` loop of `GetTokens`, with explicit fuel: `none`
means the loop did not finish within `fuel` iterations. Each iteration
fetches `next`, aborts the whole call on error, and otherwise appends
the tokens of the page and continues with the new `next`. -/
def getTokensLoop (exec : PageExec) (parse : String → Option HubTool.UUID) :
    Nat → List Token → String → Option (Except HubError (List Token) × List Request)
  | _, tokens, "" => some (Except.ok tokens, [])
  | 0, _, _ => none
  | fuel + 1, tokens, next =>
    match getTokensPage exec parse next with
    | (Except.error e, reqs) => some (Except.error e, reqs)
    | (Except.ok (pageTokens, n), reqs) =>
      match getTokensLoop exec parse fuel (tokens ++ pageTokens) n with
      | none => none
      | some (res, rs) => some (res, reqs ++ rs)

/-- The first-page URL of `GetTokens`: `c.domain + TokensURL` with the
query `page_size` and `page=1`; `url.Values.Encode` emits the keys in
sorted order. -/
def firstPageURL (domain : String) : String :=
  domain ++ TokensURL ++ "?page=1&page_size=" ++ toString itemsPerPage

/-- `GetTokens`: fetch page 1; when the client-wide `fetchAllElements`
flag is set, follow `next` links until empty (with the given fuel),
concatenating results in page order; otherwise return only page 1. -/
def GetTokens (exec : PageExec) (parse : String → Option HubTool.UUID)
    (fetchAllElements : Bool) (domain : String) (fuel : Nat) :
    Option (Except HubError (List Token) × List Request) :=
  match getTokensPage exec parse (firstPageURL domain) with
  | (Except.error e, reqs) => some (Except.error e, reqs)
  | (Except.ok (tokens, next), reqs) =>
    if fetchAllElements then
      match getTokensLoop exec parse fuel tokens next with
      | none => none
      | some (res, rs) => some (res, reqs ++ rs)
    else some (Except.ok tokens, reqs)

/-- Whether the pagination chain starting at `next` halts within `fuel`
page fetches: it halts exactly when the link is already empty, or the
fetch of some reached page errors or yields an empty `next` link. -/
def paginationHalts (exec : PageExec) (parse : String → Option HubTool.UUID) :
    Nat → String → Bool
  | _, "" => true
  | 0, _ => false
  | fuel + 1, next =>
    match getTokensPage exec parse next with
    | (Except.error _, _) => true
    | (Except.ok (_, n), _) => paginationHalts exec parse fuel n

/-! ### Concrete fixtures used to evaluate the theorems -/

/-- A well-formed wire token object, used as a concrete fixture. -/
def sampleResult : HubTokenResult :=
  { UUID := "8208674e-d08a-426f-b6f4-e3aba7058459"
    ClientID := "HUB_CLI"
    CreatorIP := "127.0.0.1"
    CreatorUA := "hub-tool"
    CreatedAt := 10
    LastUsed := 20
    GeneratedBy := "manual"
    IsActive := true
    Token := "secret-value"
    TokenLabel := "first label"
    Scopes := ["repo:public_read"] }

/-- A second well-formed wire token object, for the second page. -/
def sampleResult2 : HubTokenResult :=
  { sampleResult with
      UUID := "11111111-2222-3333-4444-555555555555"
      Token := ""
      TokenLabel := "second label" }

/-- A wire token object whose uuid field is not parseable. -/
def badResult : HubTokenResult :=
  { sampleResult with UUID := "not-a-uuid" }

/-- A UUID-parse stub that accepts every string. -/
def parseAll : String → Option HubTool.UUID := fun _ => some { val := 7 }

/-- A UUID-parse stub that rejects every string. -/
def parseNone : String → Option HubTool.UUID := fun _ => none

/-- The domain token that `convertToken parseAll` yields on `sampleResult`. -/
def sampleToken : Token :=
  { UUID := { val := 7 }
    ClientID := sampleResult.ClientID
    CreatorIP := sampleResult.CreatorIP
    CreatorUA := sampleResult.CreatorUA
    CreatedAt := sampleResult.CreatedAt
    LastUsed := sampleResult.LastUsed
    GeneratedBy := sampleResult.GeneratedBy
    IsActive := sampleResult.IsActive
    Token := sampleResult.Token
    Description := sampleResult.TokenLabel
    Scopes := sampleResult.Scopes }

/-- The domain token that `convertToken parseAll` yields on `sampleResult2`. -/
def sampleToken2 : Token :=
  { UUID := { val := 7 }
    ClientID := sampleResult2.ClientID
    CreatorIP := sampleResult2.CreatorIP
    CreatorUA := sampleResult2.CreatorUA
    CreatedAt := sampleResult2.CreatedAt
    LastUsed := sampleResult2.LastUsed
    GeneratedBy := sampleResult2.GeneratedBy
    IsActive := sampleResult2.IsActive
    Token := sampleResult2.Token
    Description := sampleResult2.TokenLabel
    Scopes := sampleResult2.Scopes }

/-- The first-page GET request of `GetTokens` against domain `"d"`. -/
def pageOneReq : Request := { method := "GET", url := firstPageURL "d", body := none }

/-- The GET request for the continuation URL `"page2"`. -/
def pageTwoReq : Request := { method := "GET", url := "page2", body := none }

/-- Mock paged executor: any URL other than `"page2"` yields page one
(one result, `next = "page2"`), and `"page2"` yields page two (one
result, empty `next`). -/
def pagedExec : PageExec := fun req =>
  if req.url = "page2" then
    Except.ok { Count := 2, Next := "", Previous := "", Results := [sampleResult2] }
  else
    Except.ok { Count := 2, Next := "page2", Previous := "", Results := [sampleResult] }

/-- Mock paged executor whose second page fails with a transport error. -/
def pagedExecBoom : PageExec := fun req =>
  if req.url = "page2" then Except.error (HubError.transport "boom")
  else Except.ok { Count := 2, Next := "page2", Previous := "", Results := [sampleResult] }

/-- Mock paged executor that always fails with a transport error. -/
def downExec : PageExec := fun _ => Except.error (HubError.transport "down")

/-- Mock single-token executor that always returns `badResult`. -/
def badResultExec : ResultExec := fun _ => Except.ok badResult

/-- The paged envelope carrying the malformed-uuid result. -/
def badPage : HubTokenResponse :=
  { Count := 1, Next := "", Previous := "", Results := [badResult] }

/-- Mock paged executor that always returns `badPage`. -/
def badPageExec : PageExec := fun _ => Except.ok badPage

/-- Mock raw executor that always succeeds with an empty body. -/
def rawOkExec : RawExec := fun _ => Except.ok ""

/-- Mock paged executor where every page points back at itself, so the
pagination chain never reaches an empty `next` link or an error. -/
def selfLoopExec : PageExec := fun req =>
  Except.ok { Count := 0, Next := req.url, Previous := "", Results := [] }

/-! ### Helper lemmas -/

theorem getTokensLoop_empty_next (exec : PageExec) (parse : String → Option HubTool.UUID)
    (fuel : Nat) (acc : List Token) :
    getTokensLoop exec parse fuel acc "" = some (Except.ok acc, []) := by
  cases fuel <;> rfl

theorem getTokensLoop_step (exec : PageExec) (parse : String → Option HubTool.UUID)
    (fuel : Nat) (acc : List Token) (next : String) (hne : next ≠ "") :
    getTokensLoop exec parse (fuel + 1) acc next =
      match getTokensPage exec parse next with
      | (Except.error e, reqs) => some (Except.error e, reqs)
      | (Except.ok (pageTokens, n), reqs) =>
        match getTokensLoop exec parse fuel (acc ++ pageTokens) n with
        | none => none
        | some (res, rs) => some (res, reqs ++ rs) := by
  rw [getTokensLoop]
  simp [hne]

theorem paginationHalts_empty (exec : PageExec) (parse : String → Option HubTool.UUID)
    (fuel : Nat) : paginationHalts exec parse fuel "" = true := by
  cases fuel <;> rfl

theorem paginationHalts_step (exec : PageExec) (parse : String → Option HubTool.UUID)
    (fuel : Nat) (next : String) (hne : next ≠ "") :
    paginationHalts exec parse (fuel + 1) next =
      match getTokensPage exec parse next with
      | (Except.error _, _) => true
      | (Except.ok (_, n), _) => paginationHalts exec parse fuel n := by
  rw [paginationHalts]
  simp [hne]

theorem validScopes_pred :
    (fun s => !(validScopes.contains s)) = (fun s : String => !(s == "repo:public_read")) := by
  funext s
  by_cases h : s = "repo:public_read" <;> simp [validScopes, h]

theorem convertTokens_error_of_bad_uuid (parse : String → Option HubTool.UUID)
    (rs : List HubTokenResult) (h : ∃ x ∈ rs, parse x.UUID = none) :
    ∃ u, convertTokens parse rs = Except.error (HubError.invalidUUID u) := by
  induction rs with
  | nil => simp at h
  | cons r rest ih =>
    cases hp : parse r.UUID with
    | none => exact ⟨r.UUID, by simp [convertTokens, convertToken, hp]⟩
    | some u =>
      obtain ⟨x, hx, hxn⟩ := h
      rcases List.mem_cons.mp hx with hx | hx
      · subst hx
        rw [hp] at hxn
        exact absurd hxn (by simp)
      · obtain ⟨u2, hu2⟩ := ih ⟨x, hx, hxn⟩
        exact ⟨u2, by simp [convertTokens, convertToken, hp, hu2]⟩

/-! ### Claim theorems -/

/-- Claim C1: CreateToken rejects, before handing any request to the
executor (the trace is empty), every scopes list whose first non-member
of the allow-list — equivalently, first element different from
`repo:public_read` — exists, naming that scope in the `InvalidScope`
error; and validation succeeds on every list all of whose elements are
`repo:public_read`. -/
theorem createToken_scope_check (exec : ResultExec) (parse : String → Option HubTool.UUID)
    (domain description : String) (scopes : List String) (bad : String) :
    (scopes.find? (fun s => !(s == "repo:public_read")) = some bad →
      CreateToken exec parse domain description scopes =
        (Except.error (HubError.invalidScope bad), [])) ∧
    ((∀ s ∈ scopes, s = "repo:public_read") → validateScopes scopes = none) := by
  constructor
  · intro h
    have hv : validateScopes scopes = some (HubError.invalidScope bad) := by
      unfold validateScopes
      rw [validScopes_pred, h]
      rfl
    unfold CreateToken
    rw [hv]
  · intro h
    unfold validateScopes
    rw [validScopes_pred]
    have hfind : scopes.find? (fun s : String => !(s == "repo:public_read")) = none := by
      rw [List.find?_eq_none]
      intro x hx
      simp [h x hx]
    rw [hfind]
    rfl

/-- Witness for C1 at concrete scope lists: a list containing
`repo:admin` is rejected with no request issued, and a list of only
`repo:public_read` entries validates. -/
theorem createToken_scope_check_witness :
    CreateToken badResultExec parseNone "https://hub.docker.com" "desc"
      ["repo:public_read", "repo:admin"] =
      (Except.error (HubError.invalidScope "repo:admin"), []) ∧
    validateScopes ["repo:public_read", "repo:public_read"] = none :=
  ⟨(createToken_scope_check badResultExec parseNone "https://hub.docker.com" "desc"
      ["repo:public_read", "repo:admin"] "repo:admin").1 rfl,
   (createToken_scope_check badResultExec parseNone "https://hub.docker.com" "desc"
      ["repo:public_read", "repo:public_read"] "x").2 (by decide)⟩

/-- Claim C2: with the fetch-all flag disabled GetTokens returns exactly
the converted first page, whatever its `next` link; with the flag
enabled the loop returns the accumulator unchanged and issues no request
once `next` is empty, follows each non-empty `next` link appending that
page in order, and in particular a two-page scenario yields the ordered
concatenation of both pages with exactly one request per page. -/
theorem getTokens_pages (exec : PageExec) (parse : String → Option HubTool.UUID)
    (domain : String) (fuel : Nat) (ts1 ts2 acc pageTokens : List Token)
    (u2 next n : String) (rs1 rs2 reqs : List Request) :
    (∀ m rs, getTokensPage exec parse (firstPageURL domain) = (Except.ok (ts1, m), rs) →
      GetTokens exec parse false domain fuel = some (Except.ok ts1, rs)) ∧
    (getTokensLoop exec parse fuel acc "" = some (Except.ok acc, [])) ∧
    (next ≠ "" → getTokensPage exec parse next = (Except.ok (pageTokens, n), reqs) →
      getTokensLoop exec parse (fuel + 1) acc next =
        (getTokensLoop exec parse fuel (acc ++ pageTokens) n).map
          (fun p => (p.1, reqs ++ p.2))) ∧
    (getTokensPage exec parse (firstPageURL domain) = (Except.ok (ts1, u2), rs1) →
      u2 ≠ "" →
      getTokensPage exec parse u2 = (Except.ok (ts2, ""), rs2) →
      GetTokens exec parse true domain (fuel + 1) = some (Except.ok (ts1 ++ ts2), rs1 ++ rs2)) := by
  refine ⟨?_, getTokensLoop_empty_next exec parse fuel acc, ?_, ?_⟩
  · intro m rs h
    simp only [GetTokens, h]
    rfl
  · intro hne hp
    rw [getTokensLoop_step exec parse fuel acc next hne, hp]
    rcases hloop : getTokensLoop exec parse fuel (acc ++ pageTokens) n with _ | ⟨r, rs⟩ <;>
      simp [hloop]
  · intro h1 hne h2
    simp only [GetTokens, h1]
    rw [getTokensLoop_step exec parse fuel ts1 u2 hne, h2]
    simp [getTokensLoop_empty_next]

/-- Witness for C2 on a concrete two-page mock: fetch-all disabled keeps
only page one although its `next` is non-empty; fetch-all enabled
returns both pages in order with exactly the two page requests. -/
theorem getTokens_pages_witness :
    GetTokens pagedExec parseAll false "d" 5 =
      some (Except.ok [sampleToken], [pageOneReq]) ∧
    GetTokens pagedExec parseAll true "d" 1 =
      some (Except.ok [sampleToken, sampleToken2], [pageOneReq, pageTwoReq]) :=
  ⟨(getTokens_pages pagedExec parseAll "d" 5 [sampleToken] [] [] [] "" "" "" [] [] []).1
      "page2" [pageOneReq] rfl,
   (getTokens_pages pagedExec parseAll "d" 0 [sampleToken] [sampleToken2] [] [] "page2" "" ""
      [pageOneReq] [pageTwoReq] []).2.2.2 rfl (by decide) rfl⟩

/-- Claim C3: any page error aborts GetTokens with exactly that error
and no tokens: a first-page error aborts under either flag, an error at
a later page makes the loop return the error irrespective of the tokens
already accumulated (the accumulator does not occur in the result), and
in the two-page scenario the tokens of the successful first page are
discarded. -/
theorem getTokens_error_discards_all (exec : PageExec) (parse : String → Option HubTool.UUID)
    (domain : String) (fuel : Nat) (ts1 acc : List Token) (u2 next : String)
    (e : HubError) (rs1 rs2 : List Request) :
    (getTokensPage exec parse (firstPageURL domain) = (Except.error e, rs1) →
      ∀ fetchAllElements, GetTokens exec parse fetchAllElements domain fuel =
        some (Except.error e, rs1)) ∧
    (next ≠ "" → getTokensPage exec parse next = (Except.error e, rs2) →
      getTokensLoop exec parse (fuel + 1) acc next = some (Except.error e, rs2)) ∧
    (getTokensPage exec parse (firstPageURL domain) = (Except.ok (ts1, u2), rs1) →
      u2 ≠ "" →
      getTokensPage exec parse u2 = (Except.error e, rs2) →
      GetTokens exec parse true domain (fuel + 1) = some (Except.error e, rs1 ++ rs2)) := by
  refine ⟨?_, ?_, ?_⟩
  · intro h fetchAllElements
    simp only [GetTokens, h]
  · intro hne hp
    rw [getTokensLoop_step exec parse fuel acc next hne, hp]
  · intro h1 hne h2
    simp only [GetTokens, h1]
    rw [getTokensLoop_step exec parse fuel ts1 u2 hne, h2]
    rfl

/-- Witness for C3 at concrete failing mocks: a first-page transport
error aborts the call, and a second-page error discards the tokens of
the successful first page. -/
theorem getTokens_error_discards_all_witness :
    GetTokens downExec parseAll true "d" 3 =
      some (Except.error (HubError.transport "down"), [pageOneReq]) ∧
    GetTokens pagedExecBoom parseAll true "d" 1 =
      some (Except.error (HubError.transport "boom"), [pageOneReq, pageTwoReq]) :=
  ⟨(getTokens_error_discards_all downExec parseAll "d" 3 [] [] "" ""
      (HubError.transport "down") [pageOneReq] []).1 rfl true,
   (getTokens_error_discards_all pagedExecBoom parseAll "d" 0 [sampleToken] [] "page2" ""
      (HubError.transport "boom") [pageOneReq] [pageTwoReq]).2.2 rfl (by decide) rfl⟩

/-- Claim C4: whenever the response uuid field does not parse,
`convertToken` fails with `InvalidUUID` naming that string, and so do
CreateToken, GetToken and UpdateToken on such a response; a GetTokens
page containing an unparseable uuid likewise makes the whole call fail
with an `InvalidUUID` error and no token list. -/
theorem invalidUUID_fails_conversion (exec : ResultExec) (pageExec : PageExec)
    (parse : String → Option HubTool.UUID) (domain description tokenUUID : String)
    (isActive : Bool) (r : HubTokenResult) (resp : HubTokenResponse)
    (fetchAllElements : Bool) (fuel : Nat) :
    (parse r.UUID = none →
      convertToken parse r = Except.error (HubError.invalidUUID r.UUID)) ∧
    (exec (mkCreateRequest domain description []) = Except.ok r → parse r.UUID = none →
      (CreateToken exec parse domain description []).1 =
        Except.error (HubError.invalidUUID r.UUID)) ∧
    (exec (mkGetTokenRequest domain tokenUUID) = Except.ok r → parse r.UUID = none →
      (GetToken exec parse domain tokenUUID).1 =
        Except.error (HubError.invalidUUID r.UUID)) ∧
    (exec (mkUpdateRequest domain tokenUUID description isActive) = Except.ok r →
      parse r.UUID = none →
      (UpdateToken exec parse domain tokenUUID description isActive).1 =
        Except.error (HubError.invalidUUID r.UUID)) ∧
    (pageExec { method := "GET", url := firstPageURL domain, body := none } = Except.ok resp →
      (∃ x ∈ resp.Results, parse x.UUID = none) →
      ∃ u, GetTokens pageExec parse fetchAllElements domain fuel =
        some (Except.error (HubError.invalidUUID u),
          [{ method := "GET", url := firstPageURL domain, body := none }])) := by
  refine ⟨?_, ?_, ?_, ?_, ?_⟩
  · intro hp
    simp [convertToken, hp]
  · intro hE hp
    simp [CreateToken, validateScopes, hE, convertToken, hp]
  · intro hE hp
    simp [GetToken, hE, convertToken, hp]
  · intro hE hp
    simp [UpdateToken, hE, convertToken, hp]
  · intro hE hbad
    obtain ⟨u, hu⟩ := convertTokens_error_of_bad_uuid parse resp.Results hbad
    refine ⟨u, ?_⟩
    simp [GetTokens, getTokensPage, hE, hu]

/-- Witness for C4 at the fixture whose uuid field is `not-a-uuid` and a
parse stub that rejects it, across the four converting calls. -/
theorem invalidUUID_fails_conversion_witness :
    convertToken parseNone badResult = Except.error (HubError.invalidUUID "not-a-uuid") ∧
    (CreateToken badResultExec parseNone "d" "desc" []).1 =
      Except.error (HubError.invalidUUID "not-a-uuid") ∧
    (GetToken badResultExec parseNone "d" "u").1 =
      Except.error (HubError.invalidUUID "not-a-uuid") ∧
    (UpdateToken badResultExec parseNone "d" "u" "desc" true).1 =
      Except.error (HubError.invalidUUID "not-a-uuid") ∧
    GetTokens badPageExec parseNone false "d" 0 =
      some (Except.error (HubError.invalidUUID "not-a-uuid"), [pageOneReq]) :=
  ⟨(invalidUUID_fails_conversion badResultExec badPageExec parseNone "d" "desc" "u" true
      badResult badPage false 0).1 rfl,
   (invalidUUID_fails_conversion badResultExec badPageExec parseNone "d" "desc" "u" true
      badResult badPage false 0).2.1 rfl rfl,
   (invalidUUID_fails_conversion badResultExec badPageExec parseNone "d" "desc" "u" true
      badResult badPage false 0).2.2.1 rfl rfl,
   (invalidUUID_fails_conversion badResultExec badPageExec parseNone "d" "desc" "u" true
      badResult badPage false 0).2.2.2.1 rfl rfl,
   rfl⟩

/-- Claim C5: on a wire object with a parseable uuid the conversion
copies every field unchanged except that the wire `token_label` becomes
the domain `Description`; and the request encoding carries the
description under the JSON name `token_label` (when non-empty, per
omitempty), never under any name outside the three tagged ones. -/
theorem tokenLabel_maps_to_description (parse : String → Option HubTool.UUID)
    (r : HubTokenResult) (u : HubTool.UUID) (req : HubTokenRequest) :
    (parse r.UUID = some u →
      convertToken parse r = Except.ok
        { UUID := u
          ClientID := r.ClientID
          CreatorIP := r.CreatorIP
          CreatorUA := r.CreatorUA
          CreatedAt := r.CreatedAt
          LastUsed := r.LastUsed
          GeneratedBy := r.GeneratedBy
          IsActive := r.IsActive
          Token := r.Token
          Description := r.TokenLabel
          Scopes := r.Scopes }) ∧
    (req.Description ≠ "" →
      ("token_label", JsonValue.str req.Description) ∈ encodeHubTokenRequest req) ∧
    (∀ kv ∈ encodeHubTokenRequest req,
      kv.1 ≠ "description" ∧ (kv.1 = "token_label" ∨ kv.1 = "is_active" ∨ kv.1 = "scopes")) := by
  refine ⟨?_, ?_, ?_⟩
  · intro hp
    simp [convertToken, hp]
  · intro hd
    simp [encodeHubTokenRequest, hd]
  · intro kv hkv
    simp only [encodeHubTokenRequest, List.mem_append] at hkv
    rcases hkv with (hkv | hkv) | hkv <;> split_ifs at hkv <;>
      simp_all

/-- Witness for C5: converting the sample wire object puts its
`token_label` into `Description`, and a request with description `d`
serializes it under `token_label`. -/
theorem tokenLabel_maps_to_description_witness :
    convertToken parseAll sampleResult = Except.ok sampleToken ∧
    ("token_label", JsonValue.str "d") ∈
      encodeHubTokenRequest { Description := "d", IsActive := true, Scopes := [] } :=
  ⟨(tokenLabel_maps_to_description parseAll sampleResult { val := 7 }
      { Description := "d", IsActive := true, Scopes := [] }).1 rfl,
   (tokenLabel_maps_to_description parseAll sampleResult { val := 7 }
      { Description := "d", IsActive := true, Scopes := [] }).2.1 (by decide)⟩

/-- Counterexample to C6 as stated: at `isActive = false` the single
PATCH request issued by UpdateToken has a body whose only field name is
`token_label` — there is no `is_active` field at all, because the
`omitempty` tag drops the zero value `false`. -/
theorem updateToken_isActive_omitted :
    ((UpdateToken (fun _ => Except.error (HubError.transport "e")) parseNone
        "https://hub.docker.com" "8208674e-d08a-426f-b6f4-e3aba7058459" "label" false).2.map
      (fun r => (r.body.getD []).map Prod.fst)) = [["token_label"]] ∧
    "is_active" ∉ ["token_label"] :=
  ⟨rfl, by decide⟩

/-- Claim C6 (amended): UpdateToken issues exactly one PATCH request
whose body is the omitempty encoding of `{token_label, is_active}`: it
contains `token_label` with the supplied description exactly when that
description is non-empty, contains `is_active` exactly when `isActive`
is `true` (the value `false` is omitted), and never contains a `scopes`
field. -/
theorem updateToken_request_shape (exec : ResultExec) (parse : String → Option HubTool.UUID)
    (domain tokenUUID description : String) (isActive : Bool) :
    (UpdateToken exec parse domain tokenUUID description isActive).2 =
      [mkUpdateRequest domain tokenUUID description isActive] ∧
    (mkUpdateRequest domain tokenUUID description isActive).method = "PATCH" ∧
    (description ≠ "" → ("token_label", JsonValue.str description) ∈
      (mkUpdateRequest domain tokenUUID description isActive).body.getD []) ∧
    (isActive = true → ("is_active", JsonValue.bool true) ∈
      (mkUpdateRequest domain tokenUUID description isActive).body.getD []) ∧
    (isActive = false →
      ∀ kv ∈ (mkUpdateRequest domain tokenUUID description isActive).body.getD [],
        kv.1 ≠ "is_active") ∧
    (description = "" →
      ∀ kv ∈ (mkUpdateRequest domain tokenUUID description isActive).body.getD [],
        kv.1 ≠ "token_label") ∧
    (∀ kv ∈ (mkUpdateRequest domain tokenUUID description isActive).body.getD [],
      kv.1 ≠ "scopes") := by
  refine ⟨?_, rfl, ?_, ?_, ?_, ?_, ?_⟩
  · cases hE : exec (mkUpdateRequest domain tokenUUID description isActive) with
    | error e => simp [UpdateToken, hE]
    | ok tr =>
      cases hC : convertToken parse tr with
      | error e => simp [UpdateToken, hE, hC]
      | ok t => simp [UpdateToken, hE, hC]
  · intro hd
    simp [mkUpdateRequest, encodeHubTokenRequest, hd]
  · intro ha
    subst ha
    by_cases hd : description = "" <;> simp [mkUpdateRequest, encodeHubTokenRequest, hd]
  · intro ha kv hkv
    subst ha
    by_cases hd : description = "" <;>
      simp [mkUpdateRequest, encodeHubTokenRequest, hd] at hkv <;> simp [hkv]
  · intro hd kv hkv
    subst hd
    cases hA : isActive <;>
      simp [mkUpdateRequest, encodeHubTokenRequest, hA] at hkv <;> simp [hkv]
  · intro kv hkv
    by_cases hd : description = "" <;> cases hA : isActive <;>
      simp [mkUpdateRequest, encodeHubTokenRequest, hd, hA] at hkv <;>
      first
        | (rcases hkv with hkv | hkv <;> simp [hkv])
        | simp [hkv]

/-- Witness for the amended C6 at a non-empty description and
`isActive = true`: both fields appear in the PATCH body. -/
theorem updateToken_request_shape_witness :
    ("token_label", JsonValue.str "lbl") ∈
      (mkUpdateRequest "d" "u" "lbl" true).body.getD [] ∧
    ("is_active", JsonValue.bool true) ∈
      (mkUpdateRequest "d" "u" "lbl" true).body.getD [] :=
  ⟨(updateToken_request_shape badResultExec parseNone "d" "u" "lbl" true).2.2.1 (by decide),
   (updateToken_request_shape badResultExec parseNone "d" "u" "lbl" true).2.2.2.1 rfl⟩

/-- Claim C7: RevokeToken hands exactly one DELETE request to the
executor, never decodes the body, and returns precisely the outcome of
the executor: the very error the executor produced (such as the
transport error standing for a non-success status), or no error on
success. -/
theorem revokeToken_passthrough (exec : RawExec) (domain tokenUUID : String)
    (e : HubError) (b : String) :
    (exec (mkRevokeRequest domain tokenUUID) = Except.error e →
      RevokeToken exec domain tokenUUID = (some e, [mkRevokeRequest domain tokenUUID])) ∧
    (exec (mkRevokeRequest domain tokenUUID) = Except.ok b →
      RevokeToken exec domain tokenUUID = (none, [mkRevokeRequest domain tokenUUID])) := by
  constructor
  · intro hE
    simp [RevokeToken, hE]
  · intro hE
    simp [RevokeToken, hE]

/-- Witness for C7: a failing executor propagates its transport error
verbatim, and a succeeding one yields no error. -/
theorem revokeToken_passthrough_witness :
    RevokeToken (fun _ => Except.error (HubError.transport "503")) "d" "u" =
      (some (HubError.transport "503"), [mkRevokeRequest "d" "u"]) ∧
    RevokeToken rawOkExec "d" "u" = (none, [mkRevokeRequest "d" "u"]) :=
  ⟨(revokeToken_passthrough (fun _ => Except.error (HubError.transport "503")) "d" "u"
      (HubError.transport "503") "").1 rfl,
   (revokeToken_passthrough rawOkExec "d" "u" (HubError.transport "x") "").2 rfl⟩

/-- Claim C8: the empty scopes list passes validation vacuously, so
CreateToken proceeds to hand the POST request to the executor (the
trace is that single request), and the omitempty encoding of the
request body contains no `scopes` field. -/
theorem createToken_empty_scopes (exec : ResultExec) (parse : String → Option HubTool.UUID)
    (domain description : String) :
    validateScopes [] = none ∧
    (CreateToken exec parse domain description []).2 = [mkCreateRequest domain description []] ∧
    (mkCreateRequest domain description []).method = "POST" ∧
    (((mkCreateRequest domain description []).body.getD []).all
      (fun kv => !(kv.1 == "scopes"))) = true := by
  refine ⟨rfl, ?_, rfl, ?_⟩
  · cases hE : exec (mkCreateRequest domain description []) with
    | error e => simp [CreateToken, validateScopes, hE]
    | ok tr =>
      cases hC : convertToken parse tr with
      | error e => simp [CreateToken, validateScopes, hE, hC]
      | ok t => simp [CreateToken, validateScopes, hE, hC]
  · by_cases hd : description = "" <;>
      simp [mkCreateRequest, encodeHubTokenRequest, hd]

/-- Claim C9: GetToken, UpdateToken and RevokeToken interpolate the
supplied `tokenUUID` string verbatim into the request URL and always
hand that single request to the executor, whatever the string — no
client-side validation happens; and when the executor itself never
produces an `InvalidUUID` error (as the modelled transport does not),
any `InvalidUUID` failure of GetToken stems from the unparseable uuid
field of the decoded response. -/
theorem tokenUUID_unvalidated (exec : ResultExec) (raw : RawExec)
    (parse : String → Option HubTool.UUID) (domain tokenUUID description : String)
    (isActive : Bool) (u : String)
    (hexec : ∀ q v, exec q ≠ Except.error (HubError.invalidUUID v)) :
    ((GetToken exec parse domain tokenUUID).2 = [mkGetTokenRequest domain tokenUUID]) ∧
    (mkGetTokenRequest domain tokenUUID =
      { method := "GET", url := domain ++ ("/v2/api_tokens/" ++ tokenUUID), body := none }) ∧
    ((UpdateToken exec parse domain tokenUUID description isActive).2.map Request.url =
      [(mkUpdateRequest domain tokenUUID description isActive).url]) ∧
    ((mkUpdateRequest domain tokenUUID description isActive).url =
      domain ++ ("/v2/api_tokens/" ++ tokenUUID)) ∧
    ((RevokeToken raw domain tokenUUID).2 = [mkRevokeRequest domain tokenUUID]) ∧
    (mkRevokeRequest domain tokenUUID =
      { method := "DELETE", url := domain ++ ("/v2/api_tokens/" ++ tokenUUID), body := none }) ∧
    ((GetToken exec parse domain tokenUUID).1 = Except.error (HubError.invalidUUID u) →
      ∃ r, exec (mkGetTokenRequest domain tokenUUID) = Except.ok r ∧
        r.UUID = u ∧ parse u = none) := by
  refine ⟨?_, rfl, ?_, rfl, ?_, rfl, ?_⟩
  · cases hE : exec (mkGetTokenRequest domain tokenUUID) with
    | error e => simp [GetToken, hE]
    | ok tr =>
      cases hC : convertToken parse tr with
      | error e => simp [GetToken, hE, hC]
      | ok t => simp [GetToken, hE, hC]
  · cases hE : exec (mkUpdateRequest domain tokenUUID description isActive) with
    | error e => simp [UpdateToken, hE]
    | ok tr =>
      cases hC : convertToken parse tr with
      | error e => simp [UpdateToken, hE, hC]
      | ok t => simp [UpdateToken, hE, hC]
  · cases hE : raw (mkRevokeRequest domain tokenUUID) with
    | error e => simp [RevokeToken, hE]
    | ok b => simp [RevokeToken, hE]
  · intro hres
    cases hE : exec (mkGetTokenRequest domain tokenUUID) with
    | error e =>
      have hval : (GetToken exec parse domain tokenUUID).1 = Except.error e := by
        simp [GetToken, hE]
      rw [hval] at hres
      injection hres with he
      subst he
      exact absurd hE (hexec _ u)
    | ok tr =>
      cases hp : parse tr.UUID with
      | none =>
        have hval : (GetToken exec parse domain tokenUUID).1 =
            Except.error (HubError.invalidUUID tr.UUID) := by
          simp [GetToken, hE, convertToken, hp]
        rw [hval] at hres
        injection hres with he
        injection he with hu
        exact ⟨tr, rfl, hu, hu ▸ hp⟩
      | some v =>
        have hval : (GetToken exec parse domain tokenUUID).1 = Except.ok
            { UUID := v
              ClientID := tr.ClientID
              CreatorIP := tr.CreatorIP
              CreatorUA := tr.CreatorUA
              CreatedAt := tr.CreatedAt
              LastUsed := tr.LastUsed
              GeneratedBy := tr.GeneratedBy
              IsActive := tr.IsActive
              Token := tr.Token
              Description := tr.TokenLabel
              Scopes := tr.Scopes } := by
          simp [GetToken, hE, convertToken, hp]
        rw [hval] at hres
        exact Except.noConfusion hres

/-- Witness for C9 at the malformed input string `not-a-uuid`: the GET
and DELETE requests are still issued, with the string embedded verbatim
in the path. -/
theorem tokenUUID_unvalidated_witness :
    (GetToken badResultExec parseAll "dom" "not-a-uuid").2 =
      [mkGetTokenRequest "dom" "not-a-uuid"] ∧
    (RevokeToken rawOkExec "dom" "not-a-uuid").2 =
      [mkRevokeRequest "dom" "not-a-uuid"] :=
  ⟨(tokenUUID_unvalidated badResultExec rawOkExec parseAll "dom" "not-a-uuid" "desc" true "zz"
      (by intro q v h; simp [badResultExec] at h)).1,
   (tokenUUID_unvalidated badResultExec rawOkExec parseAll "dom" "not-a-uuid" "desc" true "zz"
      (by intro q v h; simp [badResultExec] at h)).2.2.2.2.1⟩

/-- Claim C10: the pagination loop finishes within the given fuel
exactly when the chain of `next` links halts within it, i.e. some
fetched page errors or yields an empty `next` link — there is no other
termination mechanism: against the self-pointing mock executor, whose
pages always succeed with a non-empty `next`, the loop returns `none`
for every fuel. -/
theorem getTokensLoop_terminates_iff (exec : PageExec) (parse : String → Option HubTool.UUID)
    (fuel : Nat) (acc : List Token) (next : String) :
    ((getTokensLoop exec parse fuel acc next).isSome = paginationHalts exec parse fuel next) ∧
    (getTokensLoop selfLoopExec parse fuel acc "x" = none) := by
  constructor
  · induction fuel generalizing acc next with
    | zero =>
      by_cases h : next = ""
      · subst h
        rw [getTokensLoop_empty_next, paginationHalts_empty]
        rfl
      · rw [getTokensLoop, paginationHalts] <;> simp [h]
    | succ fuel ih =>
      by_cases h : next = ""
      · subst h
        rw [getTokensLoop_empty_next, paginationHalts_empty]
        rfl
      · rw [getTokensLoop_step exec parse fuel acc next h,
          paginationHalts_step exec parse fuel next h]
        rcases hp : getTokensPage exec parse next with ⟨res, reqs⟩
        cases res with
        | error e => rfl
        | ok pr =>
          rcases pr with ⟨pageTokens, n⟩
          have hmatch : ∀ o : Option (Except HubError (List Token) × List Request),
              (match o with
                | none => none
                | some (res, rs) => some (res, reqs ++ rs)).isSome = o.isSome := by
            intro o
            rcases o with _ | ⟨r, rs⟩ <;> rfl
          rw [hmatch]
          exact ih (acc ++ pageTokens) n
  · induction fuel generalizing acc with
    | zero => rfl
    | succ fuel ih =>
      rw [getTokensLoop_step selfLoopExec parse fuel acc "x" (by decide)]
      have hp : getTokensPage selfLoopExec parse "x" =
          (Except.ok ([], "x"), [{ method := "GET", url := "x", body := none }]) := rfl
      rw [hp]
      simp [ih]

end HubTool
